import Mathlib

/-!
Shallow embedding of the xgen utility layer (`utils.go`): the built-in XSD
type table, per-language lookup, one-hop base-type resolution over parsed
declarations, namespace prefix splitting, file listing, output-directory
preparation, remote schema fetching, and the reflective generator dispatch.
Go strings are embedded as Lean `String` (or `List Char` where character
level reasoning is needed); Go maps with string keys become association
lists queried by key; effectful operations take their environment
(filesystem tree, HTTP outcome, method table) as an explicit argument.
-/

namespace Xgen

/-- The `BuildInTypes` map from `utils.go`, embedded as an association list
in source order.  Key: XSD primitive name; value: the native spellings for
Go, TypeScript, C, Java, Rust in that order.  Go map iteration order is
irrelevant here because the map is only ever queried by key. -/
def BuildInTypes : List (String × List String) :=
  [ ("anyType",            ["string", "string", "char", "String", "char"]),
    ("ENTITIES",           ["[]string", "Array<string>", "char[]", "List<String>", "Vec<char>"]),
    ("ENTITY",             ["string", "string", "char", "String", "char"]),
    ("ID",                 ["string", "string", "char", "String", "char"]),
    ("IDREF",              ["string", "string", "char", "String", "char"]),
    ("IDREFS",             ["[]string", "Array<string>", "char[]", "List<String>", "Vec<char>"]),
    ("NCName",             ["string", "string", "char", "String", "char"]),
    ("NMTOKEN",            ["string", "string", "char", "String", "char"]),
    ("NMTOKENS",           ["[]string", "Array<string>", "char[]", "List<String>", "Vec<char>"]),
    ("NOTATION",           ["[]string", "Array<string>", "char[]", "List<String>", "Vec<char>"]),
    ("Name",               ["string", "string", "char", "String", "char"]),
    ("QName",              ["xml.Name", "any", "char", "String", "char"]),
    ("anyURI",             ["string", "string", "char", "QName", "char"]),
    ("base64Binary",       ["[]byte", "Array<any>", "char[]", "List<Byte>", "Vec<u8>"]),
    ("boolean",            ["bool", "boolean", "bool", "Boolean", "bool"]),
    ("byte",               ["byte", "any", "char[]", "Byte", "&[u8]"]),
    ("date",               ["time.Time", "string", "char", "Byte", "&[u8]"]),
    ("dateTime",           ["time.Time", "string", "char", "Byte", "&[u8]"]),
    ("decimal",            ["float64", "number", "float", "Float", "f64"]),
    ("double",             ["float64", "number", "float", "Float", "f64"]),
    ("duration",           ["string", "string", "char", "String", "char"]),
    ("float",              ["float", "number", "float", "Float", "usize"]),
    ("gDay",               ["time.Time", "string", "char", "String", "char"]),
    ("gMonth",             ["time.Time", "string", "char", "String", "char"]),
    ("gMonthDay",          ["time.Time", "string", "char", "String", "char"]),
    ("gYear",              ["time.Time", "string", "char", "String", "char"]),
    ("gYearMonth",         ["time.Time", "string", "char", "String", "char"]),
    ("hexBinary",          ["[]byte", "Array<any>", "char[]", "List<Byte>", "Vec<u8>"]),
    ("int",                ["int", "number", "int", "Integer", "isize"]),
    ("integer",            ["int", "number", "int", "Integer", "isize"]),
    ("language",           ["string", "string", "char", "String", "char"]),
    ("long",               ["int64", "number", "int", "Long", "i64"]),
    ("negativeInteger",    ["int", "number", "int", "Integer", "isize"]),
    ("nonNegativeInteger", ["int", "number", "int", "Integer", "isize"]),
    ("normalizedString",   ["string", "string", "char", "String", "char"]),
    ("nonPositiveInteger", ["int", "number", "int", "Integer", "isize"]),
    ("positiveInteger",    ["int", "number", "int", "Integer", "isize"]),
    ("short",              ["int16", "number", "int", "Integer", "i16"]),
    ("string",             ["string", "string", "char", "String", "char"]),
    ("time",               ["time.Time", "string", "char", "String", "char"]),
    ("token",              ["string", "string", "char", "String", "char"]),
    ("unsignedByte",       ["byte", "any", "char", "Byte", "&[u8]"]),
    ("unsignedInt",        ["uint32", "number", "unsigned int", "Integer", "u32"]),
    ("unsignedLong",       ["uint64", "number", "unsigned int", "Long", "u64"]),
    ("unsignedShort",      ["uint16", "number", "unsigned int", "Short", "u16"]),
    ("xml:lang",           ["string", "string", "char", "String", "char"]),
    ("xml:space",          ["string", "string", "char", "String", "char"]),
    ("xml:base",           ["string", "string", "char", "String", "char"]),
    ("xml:id",             ["string", "string", "char", "String", "char"]) ]

/-- Key lookup in an association list, the embedding of a Go map read
`m[k]` returning `(value, ok)`. -/
def mapLookup (k : String) : List (String × α) → Option α
  | [] => none
  | (k', v) :: rest => if k' = k then some v else mapLookup k rest

/-- The `supportLang` map local to `getBuildInTypeByLang`. -/
def supportLang : List (String × Nat) :=
  [("Go", 0), ("TypeScript", 1), ("C", 2), ("Java", 3), ("Rust", 4)]

/-- Embedding of `getBuildInTypeByLang`.  A missing `lang` key in
`supportLang` yields Go's zero value `0`, so the Go-language spelling is
returned.  Every row of `BuildInTypes` has length 5 and every index in
`supportLang` is below 5, so the `getD` default `""` is never taken
(mirroring that the Go slice index never panics). -/
def getBuildInTypeByLang (value lang : String) : String × Bool :=
  match mapLookup value BuildInTypes with
  | none => ("", false)
  | some buildInTypes =>
      (buildInTypes.getD ((mapLookup lang supportLang).getD 0) "", true)

/-- The fields of `SimpleType` that `getBasefromSimpleType` reads
(from `xmlSimpleType.go`; `List` and `Union` are the Go field names). -/
structure SimpleType where
  Name : String
  Base : String
  List : Bool
  Union : Bool
deriving DecidableEq, Repr

/-- The fields of `Attribute` read by `getBasefromSimpleType`.  The Go
field `Type` is a Lean keyword, hence `Type'`. -/
structure Attribute where
  Name : String
  Type' : String
deriving DecidableEq, Repr

/-- The fields of `Element` read by `getBasefromSimpleType`. -/
structure Element where
  Name : String
  Type' : String
deriving DecidableEq, Repr

/-- One entry of the `[]interface{}` schema slice: the three pointer types
the switch in `getBasefromSimpleType` handles, plus `other` for any value
of a different dynamic type (skipped by the switch). -/
inductive Decl where
  | simpleType (v : SimpleType)
  | attribute (v : Attribute)
  | element (v : Element)
  | other
deriving DecidableEq, Repr

/-- Embedding of `getBasefromSimpleType`: one scan over the slice; the
first entry whose case matches returns immediately, otherwise the input
name comes back. -/
def getBasefromSimpleType (name : String) : List Decl → String
  | [] => name
  | d :: rest =>
    match d with
    | .simpleType v =>
        if !v.List && !v.Union && v.Name = name then v.Base
        else getBasefromSimpleType name rest
    | .attribute v =>
        if v.Name = name then v.Type' else getBasefromSimpleType name rest
    | .element v =>
        if v.Name = name then v.Type' else getBasefromSimpleType name rest
    | .other => getBasefromSimpleType name rest

/-- The value an entry contributes when the scan reaches it: `some` of the
returned string when the entry's case fires, `none` when the scan moves
on.  Used to state the first-match characterisation of
`getBasefromSimpleType`. -/
def declHit (name : String) : Decl → Option String
  | .simpleType v =>
      if !v.List && !v.Union && v.Name = name then some v.Base else none
  | .attribute v => if v.Name = name then some v.Type' else none
  | .element v => if v.Name = name then some v.Type' else none
  | .other => none

/-- Go's `strings.Split(str, ":")` for the single-character separator used
by `getNSPrefix` and `trimNSPrefix`, on the character list of the string:
the maximal colon-free pieces, in order, with empty pieces kept. -/
def splitOnColon : List Char → List (List Char)
  | [] => [[]]
  | c :: rest =>
    if c = ':' then [] :: splitOnColon rest
    else
      match splitOnColon rest with
      | [] => [[c]]
      | p :: ps => (c :: p) :: ps

/-- Embedding of `getNSPrefix`: the part before the colon when the split
has exactly two pieces, the empty string otherwise. -/
def getNSPrefix (str : List Char) : List Char :=
  match splitOnColon str with
  | [a, _] => a
  | _ => []

/-- Embedding of `trimNSPrefix`: the part after the colon when the split
has exactly two pieces, the input unchanged otherwise. -/
def trimNSPrefix (str : List Char) : List Char :=
  match splitOnColon str with
  | [_, b] => b
  | _ => str

/-- Outcome of the HTTP GET inside `fetchSchema`: a transport error, or a
response with a status code and a body-read outcome (the bytes
`ioutil.ReadAll` produced, paired with its error if reading failed). -/
structure HttpResponse where
  StatusCode : Nat
  BodyRead : List Nat × Option String
deriving DecidableEq, Repr

/-- Embedding of `fetchSchema`, with the outcome of `client.Get(URL)`
passed explicitly.  On transport failure the error is returned with the
empty body; on status 200 the body-read outcome is returned as is; on any
other status the body stays empty and the error stays nil. -/
def fetchSchema (get : Except String HttpResponse) : List Nat × Option String :=
  match get with
  | .error e => ([], some e)
  | .ok resp =>
    if resp.StatusCode = 200 then resp.BodyRead
    else ([], none)

/-- Result of calling a reflected method in `callFuncByName`: either no
return values, or a single error-typed return value (possibly nil). -/
inductive CallResult where
  | noResult
  | errResult (e : Option String)
deriving DecidableEq, Repr

/-- Embedding of `callFuncByName`.  The receiver's method set is the map
`methods`; `methods name = none` is `MethodByName` returning an invalid
value.  A found method is applied to the parameter list; a missing method
or a zero-result or nil-error call leaves `err` at its nil zero value. -/
def callFuncByName (methods : String → Option (List String → CallResult))
    (name : String) (params : List String) : Option String :=
  match methods name with
  | none => none
  | some f =>
    match f params with
    | .noResult => none
    | .errResult none => none
    | .errResult (some e) => some e

/-- Outcome of the `os.Stat(path)` call inside `PrepareOutputDir`:
success, a not-exist error, or any other error (permission, I/O, ...). -/
inductive StatResult where
  | ok
  | errNotExist
  | errOther (e : String)
deriving DecidableEq, Repr

/-- Embedding of `PrepareOutputDir`, with the outcomes of `os.Stat` and
`os.MkdirAll` passed explicitly (`mkdir = some e` means `MkdirAll`
failed with error `e`).  Only the not-exist branch runs `MkdirAll`; a
stat failure of any other kind falls through to `return nil`. -/
def PrepareOutputDir (path : String) (stat : StatResult)
    (mkdir : Option String) : Option String :=
  if path = "" then none
  else
    match stat with
    | .errNotExist => match mkdir with
      | some e => some e
      | none => none
    | _ => none

/-- A filesystem subtree for `GetFileList`: the entry at the given path is
a plain file or a directory with a list of named children.  Children are
listed in the order `filepath.Walk` visits them (lexical by name). -/
inductive FsTree where
  | file (name : String)
  | dir (name : String) (entries : List FsTree)
deriving Repr

/-- The name of a filesystem entry. -/
def FsTree.name : FsTree → String
  | .file n => n
  | .dir n _ => n

mutual
/-- `filepath.Walk` over the subtree rooted at path `p`: the walk visits
the root itself first, then each child subtree under the joined path. -/
def walkAt (p : String) : FsTree → List String
  | .file _ => [p]
  | .dir _ es => p :: walkEntries p es

/-- The walk of a directory's children, left to right. -/
def walkEntries (p : String) : List FsTree → List String
  | [] => []
  | e :: es => walkAt (p ++ "/" ++ e.name) e ++ walkEntries p es
end

/-- Embedding of `GetFileList` for a path whose `os.Stat` succeeds and
finds the given subtree: a directory is walked (root visited first) and
then the path is appended once more; a plain file skips the walk, so only
the final append remains. -/
def GetFileList (path : String) (t : FsTree) : List String :=
  match t with
  | .file _ => [path]
  | .dir _ _ => walkAt path t ++ [path]

/-! ## Theorems -/

/-- Claim C1, counterexample: with an `Attribute` named `a` appearing
before a matching non-list non-union `SimpleType` named `a`, the function
returns the Attribute's Type `T1`, not the SimpleType's Base `T2` as the
claim's priority rule requires.  A matching SimpleType does NOT take
priority over an earlier matching Attribute. -/
theorem getBasefromSimpleType_priority_cex :
    getBasefromSimpleType "a"
      [.attribute ⟨"a", "T1"⟩, .simpleType ⟨"a", "T2", false, false⟩] = "T1" ∧
    "T1" ≠ "T2" := by decide

/-- Claim C1, amended: `getBasefromSimpleType` performs one ordered scan
and returns the contribution of the first declaration that matches at
all — Base of a non-list non-union SimpleType with the name, or Type of an
Attribute or Element with the name, whichever kind occurs first — and the
input name when nothing matches. -/
theorem getBasefromSimpleType_first_match (name : String) (l : List Decl) :
    getBasefromSimpleType name l = (List.findSome? (declHit name) l).getD name := by
  induction l with
  | nil => rfl
  | cons d rest ih =>
    rcases d with v | v | v | _ <;>
      simp only [getBasefromSimpleType, declHit, List.findSome?_cons] <;>
      first
        | (split <;> simp_all)
        | simp_all

/-- Claim C2, counterexample: a known primitive with an unsupported
language still reports found: the nil index for `Python` selects slot 0,
the Go spelling, and `ok` stays true. -/
theorem getBuildInTypeByLang_unsupported_lang_cex :
    getBuildInTypeByLang "string" "Python" = ("string", true) ∧
    (getBuildInTypeByLang "string" "Python").2 ≠ false := by decide

/-- Claim C2, amended: `getBuildInTypeByLang` reports found=false exactly
when the primitive name is not a key of `BuildInTypes`; an unsupported
language does not make the lookup fail — it falls back to index 0, giving
the same answer as language `Go`. -/
theorem getBuildInTypeByLang_found_iff (value lang : String) :
    ((getBuildInTypeByLang value lang).2 = false ↔
      mapLookup value BuildInTypes = (none : Option (List String))) ∧
    (mapLookup lang supportLang = none →
      getBuildInTypeByLang value lang = getBuildInTypeByLang value "Go") := by
  have hGo : mapLookup "Go" supportLang = some 0 := rfl
  constructor
  · cases h : mapLookup value BuildInTypes <;> simp [getBuildInTypeByLang, h]
  · intro hl
    cases h : mapLookup value BuildInTypes <;>
      simp [getBuildInTypeByLang, h, hl, hGo]

/-- Claim C2 witness: the amended theorem applied at concrete inputs:
`Python` is unsupported and falls back to the Go spelling, and an unknown
primitive reports found=false. -/
theorem getBuildInTypeByLang_found_iff_witness :
    getBuildInTypeByLang "string" "Python" = getBuildInTypeByLang "string" "Go" ∧
    (getBuildInTypeByLang "not-a-type" "Go").2 = false :=
  ⟨(getBuildInTypeByLang_found_iff "string" "Python").2 (by decide),
   ((getBuildInTypeByLang_found_iff "not-a-type" "Go").1).mpr (by decide)⟩

/-- Claim C3, counterexample: the `BuildInTypes` table has 49 distinct
keys, not 46 as claimed. -/
theorem BuildInTypes_count_cex :
    (BuildInTypes.map Prod.fst).Nodup ∧
    BuildInTypes.length = 49 ∧ BuildInTypes.length ≠ 46 := by decide

/-- Claim C3, amended: `BuildInTypes` has exactly 49 distinct keys, of
which exactly 4 are `xml:`-namespaced attribute names, and every key maps
to a 5-tuple of native spellings (one per target language). -/
theorem BuildInTypes_shape :
    (BuildInTypes.map Prod.fst).Nodup ∧
    BuildInTypes.length = 49 ∧
    (BuildInTypes.filter (fun kv => "xml:".toList.isPrefixOf kv.1.toList)).length = 4 ∧
    (BuildInTypes.all fun kv => kv.2.length = 5) = true := by decide

/-- Every built-in key paired with every supported language yields
found=true and a non-empty native spelling (closed Boolean check over the
whole table). -/
theorem builtin_all_found_bool :
    (BuildInTypes.all fun kv => supportLang.all fun lp =>
      (getBuildInTypeByLang kv.1 lp.1).2 &&
        !((getBuildInTypeByLang kv.1 lp.1).1 == "")) = true := by decide

/-- Claim C5: for every key of `BuildInTypes` and every one of the 5
supported languages, `getBuildInTypeByLang` returns found=true and a
non-empty native type name. -/
theorem getBuildInTypeByLang_builtin_found (key lang : String)
    (hk : key ∈ BuildInTypes.map Prod.fst)
    (hl : lang ∈ supportLang.map Prod.fst) :
    (getBuildInTypeByLang key lang).2 = true ∧
    (getBuildInTypeByLang key lang).1 ≠ "" := by
  obtain ⟨kv, hkv, rfl⟩ := List.mem_map.mp hk
  obtain ⟨lp, hlp, rfl⟩ := List.mem_map.mp hl
  have h1 := List.all_eq_true.mp builtin_all_found_bool kv hkv
  have h2 := List.all_eq_true.mp h1 lp hlp
  rw [Bool.and_eq_true] at h2
  refine ⟨h2.1, fun h => ?_⟩
  have := h2.2
  rw [h] at this
  simp at this

/-- Claim C5 witness: the theorem applied at the concrete key `string`
and language `Go`. -/
theorem getBuildInTypeByLang_builtin_found_witness :
    (getBuildInTypeByLang "string" "Go").2 = true ∧
    (getBuildInTypeByLang "string" "Go").1 ≠ "" :=
  getBuildInTypeByLang_builtin_found "string" "Go" (by decide) (by decide)

/-- The colon split of a string is never the empty list of pieces. -/
theorem splitOnColon_ne_nil (s : List Char) : splitOnColon s ≠ [] := by
  induction s with
  | nil => simp [splitOnColon]
  | cons c rest ih =>
    by_cases hc : c = ':'
    · simp [splitOnColon, hc]
    · simp only [splitOnColon, if_neg hc]
      cases h : splitOnColon rest <;> simp

/-- The colon split has one more piece than the string has colons. -/
theorem splitOnColon_length (s : List Char) :
    (splitOnColon s).length = s.count ':' + 1 := by
  induction s with
  | nil => simp [splitOnColon]
  | cons c rest ih =>
    by_cases hc : c = ':'
    · subst hc
      simp [splitOnColon, List.count_cons, ih]
    · simp only [splitOnColon, if_neg hc]
      cases h : splitOnColon rest with
      | nil => exact absurd h (splitOnColon_ne_nil rest)
      | cons p ps =>
        rw [h] at ih
        simp only [List.length_cons] at ih ⊢
        simp [List.count_cons, hc, ih]

/-- A one-piece colon split means the string has no colon and the piece is
the string itself. -/
theorem splitOnColon_single :
    ∀ (s a : List Char), splitOnColon s = [a] → s = a ∧ ':' ∉ a := by
  intro s
  induction s with
  | nil =>
    intro a h
    simp [splitOnColon] at h
    subst h
    exact ⟨rfl, by simp⟩
  | cons c rest ih =>
    intro a h
    by_cases hc : c = ':'
    · rw [hc] at h
      simp [splitOnColon] at h
      exact absurd h.2 (splitOnColon_ne_nil rest)
    · simp only [splitOnColon, if_neg hc] at h
      cases hr : splitOnColon rest with
      | nil => exact absurd hr (splitOnColon_ne_nil rest)
      | cons p ps =>
        rw [hr] at h
        obtain ⟨h1, h2⟩ := List.cons.inj h
        subst h2
        obtain ⟨hp, hpc⟩ := ih p hr
        subst hp
        subst h1
        exact ⟨rfl, by simp [List.mem_cons, hpc, Ne.symm hc]⟩

/-- A two-piece colon split recovers the string: the string is the first
piece, a colon, then the second piece, and neither piece has a colon. -/
theorem splitOnColon_pair :
    ∀ (s a b : List Char), splitOnColon s = [a, b] →
      s = a ++ ':' :: b ∧ ':' ∉ a ∧ ':' ∉ b := by
  intro s
  induction s with
  | nil =>
    intro a b h
    simp [splitOnColon] at h
  | cons c rest ih =>
    intro a b h
    by_cases hc : c = ':'
    · subst hc
      have h' : ([] : List Char) :: splitOnColon rest = [a, b] := by
        simpa [splitOnColon] using h
      obtain ⟨h1, h2⟩ := List.cons.inj h'
      obtain ⟨hr, hrc⟩ := splitOnColon_single rest b h2
      subst hr
      subst h1
      exact ⟨rfl, by simp, hrc⟩
    · simp only [splitOnColon, if_neg hc] at h
      cases hr : splitOnColon rest with
      | nil => exact absurd hr (splitOnColon_ne_nil rest)
      | cons p ps =>
        rw [hr] at h
        obtain ⟨h1, h2⟩ := List.cons.inj h
        rw [h2] at hr
        obtain ⟨hrest, hpc, hbc⟩ := ih p b hr
        subst hrest
        subst h1
        exact ⟨rfl, by simp [List.mem_cons, hpc, Ne.symm hc], hbc⟩

/-- When a string has exactly one colon, the namespace helpers split it at
that colon: the string is the computed namespace, the colon, then the
computed local name, and neither part has a colon. -/
theorem split_at_single_colon (s : List Char) (h : s.count ':' = 1) :
    s = getNSPrefix s ++ ':' :: trimNSPrefix s ∧
    ':' ∉ getNSPrefix s ∧ ':' ∉ trimNSPrefix s := by
  have hlen : (splitOnColon s).length = 2 := by rw [splitOnColon_length, h]
  obtain ⟨a, b, hab⟩ : ∃ a b, splitOnColon s = [a, b] := by
    cases hs : splitOnColon s with
    | nil => exact absurd hs (splitOnColon_ne_nil s)
    | cons x xs =>
      cases xs with
      | nil => rw [hs] at hlen; simp at hlen
      | cons y ys =>
        cases ys with
        | nil => exact ⟨x, y, rfl⟩
        | cons z zs => rw [hs] at hlen; simp at hlen
  have hpre : getNSPrefix s = a := by simp [ getNSPrefix, hab]
  have htrim : trimNSPrefix s = b := by simp [ trimNSPrefix, hab]
  rw [hpre, htrim]
  exact splitOnColon_pair s a b hab

/-- When a string does not have exactly one colon, the namespace helpers
fall through: the computed namespace is empty and the local name is the
whole string. -/
theorem split_other_colon_count (s : List Char) (h : s.count ':' ≠ 1) :
    getNSPrefix s = [] ∧ trimNSPrefix s = s := by
  have hlen : (splitOnColon s).length ≠ 2 := by
    rw [splitOnColon_length]
    omega
  cases hs : splitOnColon s with
  | nil => exact absurd hs (splitOnColon_ne_nil s)
  | cons x xs =>
    cases xs with
    | nil => simp [ getNSPrefix, trimNSPrefix, hs]
    | cons y ys =>
      cases ys with
      | nil => rw [hs] at hlen; simp at hlen
      | cons z zs => simp [ getNSPrefix, trimNSPrefix, hs]

/-- Claim C7: `getNSPrefix` returns the part before the colon exactly when
the string has exactly one colon (otherwise the empty string), and
`trimNSPrefix` returns the part after the colon under the same condition
(otherwise the input unchanged). -/
theorem ns_helpers_exact_one_colon (s : List Char) :
    (s.count ':' = 1 →
      s = getNSPrefix s ++ ':' :: trimNSPrefix s ∧
      ':' ∉ getNSPrefix s ∧ ':' ∉ trimNSPrefix s) ∧
    (s.count ':' ≠ 1 → getNSPrefix s = [] ∧ trimNSPrefix s = s) :=
  ⟨split_at_single_colon s, split_other_colon_count s⟩

/-- Claim C7 witness: the theorem applied at `ns:Elem` (one colon: the
split reconstructs the string) and at `a:b:c` (two colons: empty
namespace, unchanged local name). -/
theorem ns_helpers_exact_one_colon_witness :
    "ns:Elem".toList =
      getNSPrefix "ns:Elem".toList ++ ':' :: trimNSPrefix "ns:Elem".toList ∧
    ( getNSPrefix "a:b:c".toList = [] ∧ trimNSPrefix "a:b:c".toList = "a:b:c".toList) :=
  ⟨((ns_helpers_exact_one_colon "ns:Elem".toList).1 (by decide)).1,
   (ns_helpers_exact_one_colon "a:b:c".toList).2 (by decide)⟩

/-- Claim C10: for a string with exactly one colon, concatenating the
namespace, a colon and the local name reconstructs the string —
`getNSPrefix` and `trimNSPrefix` form a lossless split. -/
theorem ns_split_roundtrip (s : List Char) (h : s.count ':' = 1) :
    getNSPrefix s ++ ':' :: trimNSPrefix s = s :=
  ((split_at_single_colon s h).1).symm

/-- Claim C10 witness: the round trip at the concrete input `ns:Elem`. -/
theorem ns_split_roundtrip_witness :
    getNSPrefix "ns:Elem".toList ++ ':' :: trimNSPrefix "ns:Elem".toList =
      "ns:Elem".toList :=
  ns_split_roundtrip "ns:Elem".toList (by decide)

/-- Claim C4, counterexample: for a directory `d` with exactly the plain
file entries `A` and `B`, `GetFileList` does not return `[A, B, dirPath]`:
the walk visits the root directory itself first, so the root path appears
both at the front and appended at the end. -/
theorem GetFileList_dir_cex :
    GetFileList "d" (.dir "d" [.file "A", .file "B"]) ≠
      ["d" ++ "/" ++ "A", "d" ++ "/" ++ "B", "d"] ∧
    GetFileList "d" (.dir "d" [.file "A", .file "B"]) = ["d", "d/A", "d/B", "d"] := by
  constructor <;> decide

/-- Claim C4, amended: for a directory `d` with exactly the plain file
entries `a` and `b`, `GetFileList` returns the walk sequence with the root
visited first and the root path appended once more at the end —
`[d, d/a, d/b, d]`; for a plain file it returns just the path. -/
theorem GetFileList_dir_and_file (d a b p n : String) :
    GetFileList d (.dir d [.file a, .file b]) =
      [d, d ++ "/" ++ a, d ++ "/" ++ b, d] ∧
    GetFileList p (.file n) = [p] := by
  constructor <;> rfl

/-- Claim C6: `fetchSchema` returns a transport error of the GET as the
error with an empty body, returns the body-read outcome verbatim on a 200
status, and returns an empty body with no error on every other status. -/
theorem fetchSchema_spec (get : Except String HttpResponse) :
    (∀ e, get = .error e → fetchSchema get = ([], some e)) ∧
    (∀ r, get = .ok r → r.StatusCode ≠ 200 → fetchSchema get = ([], none)) ∧
    (∀ r, get = .ok r → r.StatusCode = 200 → fetchSchema get = r.BodyRead) := by
  refine ⟨?_, ?_, ?_⟩
  · intro e he
    subst he
    rfl
  · intro r hr hst
    subst hr
    simp [fetchSchema, hst]
  · intro r hr hst
    subst hr
    simp [fetchSchema, hst]

/-- Claim C6 witness: the theorem applied at a transport failure, a 404
response, and a 200 response with body bytes `[1, 2]`. -/
theorem fetchSchema_spec_witness :
    fetchSchema (.error "connection refused") = ([], some "connection refused") ∧
    fetchSchema (.ok ⟨404, ([7], none)⟩) = ([], none) ∧
    fetchSchema (.ok ⟨200, ([1, 2], none)⟩) = ([1, 2], none) :=
  ⟨(fetchSchema_spec _).1 "connection refused" rfl,
   (fetchSchema_spec _).2.1 ⟨404, ([7], none)⟩ rfl (by decide),
   (fetchSchema_spec _).2.2 ⟨200, ([1, 2], none)⟩ rfl rfl⟩

/-- Claim C8: `callFuncByName` is a silent no-op when the method is
absent; a present zero-result method always succeeds; a present
error-result method propagates a non-nil error verbatim and succeeds on a
nil one. -/
theorem callFuncByName_spec (methods : String → Option (List String → CallResult))
    (name : String) (params : List String) :
    (methods name = none → callFuncByName methods name params = none) ∧
    (∀ f, methods name = some f →
      (f params = .noResult → callFuncByName methods name params = none) ∧
      (f params = .errResult none → callFuncByName methods name params = none) ∧
      (∀ e, f params = .errResult (some e) →
        callFuncByName methods name params = some e)) := by
  constructor
  · intro h
    simp [callFuncByName, h]
  · intro f hf
    refine ⟨?_, ?_, ?_⟩
    · intro h
      simp [callFuncByName, hf, h]
    · intro h
      simp [callFuncByName, hf, h]
    · intro e he
      simp [callFuncByName, hf, he]

/-- Claim C8 witness: the theorem applied to a receiver with no method at
all, and to one whose method reports the error `boom`. -/
theorem callFuncByName_spec_witness :
    callFuncByName (fun _ => none) "OnElement" [] = none ∧
    callFuncByName (fun _ => some fun _ => .errResult (some "boom"))
      "OnElement" [] = some "boom" :=
  ⟨(callFuncByName_spec (fun _ => none) "OnElement" []).1 rfl,
   ((callFuncByName_spec (fun _ => some fun _ => .errResult (some "boom"))
      "OnElement" []).2 _ rfl).2.2 "boom" rfl⟩

/-- Claim C9, counterexample: with a non-empty path whose status check
fails with a permission error, `PrepareOutputDir` returns nil (success)
instead of surfacing the failure. -/
theorem PrepareOutputDir_stat_error_cex :
    PrepareOutputDir "out" (.errOther "permission denied") none = none ∧
    ∀ e, PrepareOutputDir "out" (.errOther "permission denied") none ≠ some e := by
  constructor
  · rfl
  · intro e
    simp [PrepareOutputDir]

/-- Claim C9, amended: a status-check failure other than not-exist is
swallowed — `PrepareOutputDir` returns nil regardless of the path; the
only failure it surfaces is an error of the directory creation performed
when the path does not exist. -/
theorem PrepareOutputDir_swallows_stat_error (path e : String) (mkdir : Option String) :
    PrepareOutputDir path (.errOther e) mkdir = none ∧
    (path ≠ "" → PrepareOutputDir path .errNotExist (some e) = some e) := by
  constructor
  · by_cases hp : path = "" <;> simp [PrepareOutputDir, hp]
  · intro hp
    simp [PrepareOutputDir, hp]

/-- Claim C9 witness: the amended theorem at path `out`: a permission
error on stat yields success, a failing directory creation surfaces its
error. -/
theorem PrepareOutputDir_swallows_stat_error_witness :
    PrepareOutputDir "out" (.errOther "permission denied") none = none ∧
    PrepareOutputDir "out" .errNotExist (some "disk full") = some "disk full" :=
  ⟨(PrepareOutputDir_swallows_stat_error "out" "permission denied" none).1,
   (PrepareOutputDir_swallows_stat_error "out" "disk full" none).2 (by decide)⟩

end Xgen
